import Mathlib

/-!
# twitch-backend: a shallow embedding of `src/server.js`

The server is an Express application with one CORS origin callback, one
process-wide variable (`twitchAccessToken`), one helper (`getAppAccessToken`)
and two request handlers.  Every outbound `axios` call is modelled by a
`Provider` oracle that maps the request to either an error (network failure or
non-2xx status, which makes `axios` throw) or the decoded response body.  A
handler returns its HTTP response together with the ordered list of outbound
calls it issued and, where it touches it, the new value of `twitchAccessToken`.

Modelling conventions
* A JavaScript value that is a string or missing is an `Option String`;
  `none` stands for both `undefined` and `null`.  The one field where the two
  differ in the JSON sent, `avatarUrl`, is a `MaybeString`.
* Response bodies of the provider follow the Helix schema: identifiers, names
  and URLs are strings, `viewer_count` is a number, a stream's `type` may be
  missing.  A user object carries the three fields the server reads.
* The object `userMap` is a plain JavaScript object: it inherits the members
  of `Object.prototype`, and an assignment to its key `__proto__` replaces its
  prototype instead of creating a property.
* `req.body` is what the JSON middleware left on the request: a parsed object,
  or `undefined` when no body was parsed.
* `console.log` / `console.error` output is not part of the model.
-/

namespace TwitchBackend

/-! ## JavaScript primitives used by the source -/

/-- JavaScript truthiness of a possibly missing string: `undefined`, `null`
and the empty string are falsy, every other string is truthy. -/
def truthy : Option String → Bool
  | none => false
  | some s => s != ""

/-- Search used by `String.prototype.includes`, on character lists: some
suffix of the haystack starts with the needle. -/
def includesChars : List Char → List Char → Bool
  | [], sub => sub.isPrefixOf []
  | c :: cs, sub => sub.isPrefixOf (c :: cs) || includesChars cs sub

/-- `s.includes(sub)` of JavaScript. -/
def includes (s sub : String) : Bool :=
  includesChars s.data sub.data

/-- Replacement of the first occurrence of `pat` (scanning left to right) by
`rep`, on character lists; the input is returned unchanged when `pat` does not
occur. -/
def replaceChars : List Char → List Char → List Char → List Char
  | [], pat, rep => if pat.isPrefixOf [] then rep else []
  | c :: cs, pat, rep =>
    if pat.isPrefixOf (c :: cs) then rep ++ (c :: cs).drop pat.length
    else c :: replaceChars cs pat rep

/-- `s.replace(pat, rep)` of JavaScript for a string pattern `pat` and a
replacement `rep` without `$` sequences: only the first occurrence is
replaced. -/
def replace (s pat rep : String) : String :=
  ⟨replaceChars s.data pat.data rep.data⟩

/-! ## Configuration (`process.env`) -/

/-- The environment variables read by the server. -/
structure Env where
  FRONTEND_URL : Option String
  TWITCH_CLIENT_ID : Option String
  TWITCH_CLIENT_SECRET : Option String
  TWITCH_REDIRECT_URI : Option String

/-! ## CORS -/

/-- The allow-list of `server.js` lines 10-14: two development origins and
`FRONTEND_URL`, with falsy entries removed by `.filter(Boolean)`. -/
def allowedOrigins (env : Env) : List String :=
  [some "http://localhost:5173", some "http://localhost:5174", env.FRONTEND_URL].filterMap
    (fun o => if truthy o then o else none)

/-- What the origin callback passes to `callback`: `callback(null, true)` or
`callback(new Error(message))`. -/
inductive CorsDecision
  | allow
  | block (error : String)
  deriving DecidableEq, Repr

/-- The `origin` function given to `cors` (lines 18-31); its argument is
`req.headers.origin`. -/
def corsOrigin (env : Env) (origin : Option String) : CorsDecision :=
  if !truthy origin then CorsDecision.allow
  else
    match origin with
    | none => CorsDecision.allow
    | some o =>
      if (allowedOrigins env).contains o
          || (allowedOrigins env).any (fun allowed => includes o allowed) then
        CorsDecision.allow
      else
        CorsDecision.block "No permitido por CORS"

/-! ## The provider and the calls sent to it -/

/-- The grant carried by a request to the token endpoint. -/
inductive Grant
  | client_credentials
  | authorization_code (code : String) (redirect_uri : String)
  deriving DecidableEq, Repr

/-- An outbound `axios` request.  `bearer` is the value interpolated into the
`Authorization: Bearer ...` header; `id` is the `id` query parameter of the
users endpoint (`none` when the request has no parameters). -/
inductive Call
  | postToken (client_id client_secret : Option String) (grant : Grant)
  | getStreams (clientId : Option String) (bearer : Option String) (first : Nat)
      (language : String)
  | getUsers (clientId : Option String) (bearer : Option String) (id : Option (List String))
  deriving DecidableEq, Repr

/-- The error thrown by a failed `axios` call (payload or message). -/
abbrev ApiError := String

/-- Body of a successful token response. -/
structure TokenData where
  access_token : Option String
  deriving DecidableEq, Repr

/-- One element of `data` in a successful streams response. -/
structure Stream where
  id : String
  user_id : String
  user_name : String
  title : String
  game_name : String
  viewer_count : Nat
  type : Option String
  thumbnail_url : String
  deriving DecidableEq, Repr

/-- One element of `data` in a successful users response. -/
structure User where
  id : String
  display_name : String
  profile_image_url : String
  deriving DecidableEq, Repr

/-- The external identity provider and API: the answer to each request. -/
structure Provider where
  token : Call → Except ApiError TokenData
  streams : Call → Except ApiError (List Stream)
  users : Call → Except ApiError (List User)

/-! ## Responses -/

/-- A JavaScript value that is `undefined`, `null` or a string.  In the JSON sent by
`res.json` a key whose value is `undefined` is left out, a key whose value is `null` is
written as `null`. -/
inductive MaybeString
  | undefined
  | null
  | string (s : String)
  deriving DecidableEq, Repr

/-- An element of the array sent by `GET /api/twitch/streams`. -/
structure StreamRecord where
  id : String
  canal : String
  titulo : String
  categoria : String
  avatarUrl : MaybeString
  espectadores : Nat
  enVivo : Bool
  imagen : String
  deriving DecidableEq, Repr

/-- The `user` object sent by `POST /auth/twitch/callback`. -/
structure AuthUser where
  id : String
  name : String
  profile_image_url : String
  deriving DecidableEq, Repr

/-- The JSON bodies the server sends. -/
inductive Body
  | streams (records : List StreamRecord)
  | auth (success : Bool) (user : AuthUser) (access_token : Option String)
  | error (error : String)
  deriving DecidableEq, Repr

/-- An HTTP response: status code and JSON body. -/
structure Response where
  status : Nat
  body : Body
  deriving DecidableEq, Repr

/-! ## Token manager -/

/-- The request sent by `getAppAccessToken` (lines 41-51). -/
def appTokenCall (env : Env) : Call :=
  Call.postToken env.TWITCH_CLIENT_ID env.TWITCH_CLIENT_SECRET Grant.client_credentials

/-- The function `getAppAccessToken` (lines 39-64).  The second argument is the value of
`twitchAccessToken` before the call; the result is the completion (normal, or
the thrown error's message) and the value of `twitchAccessToken` afterwards. -/
def getAppAccessToken (env : Env) (p : Provider) (_twitchAccessToken : Option String) :
    Except String Unit × Option String :=
  match p.token (appTokenCall env) with
  | Except.ok response => (Except.ok (), response.access_token)
  | Except.error _ =>
    (Except.error "Fallo en la autenticación de Twitch: Revise las credenciales en .env", none)

/-! ## Stream listing -/

/-- The request to the streams endpoint (lines 81-93). -/
def streamsCall (env : Env) (twitchAccessToken : Option String) : Call :=
  Call.getStreams env.TWITCH_CLIENT_ID twitchAccessToken 10 "es"

/-- The request to the users endpoint with the `id` parameter (lines 102-110). -/
def usersCall (env : Env) (twitchAccessToken : Option String) (userIds : List String) : Call :=
  Call.getUsers env.TWITCH_CLIENT_ID twitchAccessToken (some userIds)

/-- Names of the data properties that every plain object inherits from
`Object.prototype`; the value of each is a function. -/
def objectPrototypeMembers : List String :=
  ["constructor", "hasOwnProperty", "isPrototypeOf", "propertyIsEnumerable",
    "toLocaleString", "toString", "valueOf", "__defineGetter__", "__defineSetter__",
    "__lookupGetter__", "__lookupSetter__"]

/-- A plain JavaScript object whose own properties hold user objects: the own properties,
and the prototype (`none` is `Object.prototype`, `some u` is the user object `u`, whose
own prototype is `Object.prototype`). -/
structure UserMap where
  own : String → Option User
  proto : Option User

/-- The object literal `{}`. -/
def UserMap.empty : UserMap :=
  ⟨fun _ => none, none⟩

/-- The assignment `map[user.id] = user`: for the key `__proto__` the inherited setter
replaces the prototype; for every other key an own property is created or overwritten. -/
def UserMap.set (map : UserMap) (user : User) : UserMap :=
  if user.id = "__proto__" then { map with proto := some user }
  else { map with own := fun k => if k = user.id then some user else map.own k }

/-- The value of a property read `map[k]`. -/
inductive Looked
  | undefined
  | user (u : User)
  | string (s : String)
  | builtin
  deriving DecidableEq, Repr

/-- The members of `Object.prototype` seen through the prototype chain: `builtin` stands
for a function of `Object.prototype`. -/
def objectPrototypeGet (k : String) : Looked :=
  if objectPrototypeMembers.contains k then Looked.builtin else Looked.undefined

/-- The property read `map[k]`: the key `__proto__` yields the prototype (`builtin` stands
for `Object.prototype` itself); otherwise an own property wins, then a field of a user
object installed as prototype, then a member of `Object.prototype`. -/
def UserMap.get (map : UserMap) (k : String) : Looked :=
  if k = "__proto__" then
    match map.proto with
    | some u => Looked.user u
    | none => Looked.builtin
  else
    match map.own k with
    | some u => Looked.user u
    | none =>
      match map.proto with
      | some u =>
        if k = "id" then Looked.string u.id
        else if k = "display_name" then Looked.string u.display_name
        else if k = "profile_image_url" then Looked.string u.profile_image_url
        else objectPrototypeGet k
      | none => objectPrototypeGet k

/-- The object built by `reduce` (lines 112-115): `map[user.id] = user` for each
user in turn, starting from the empty object. -/
def userMap (users : List User) : UserMap :=
  users.foldl UserMap.set UserMap.empty

/-- The expression `userDetails ? userDetails.profile_image_url : null` (line 124): a
falsy `userDetails` (`undefined` or an empty string) gives `null`; a user object gives its
`profile_image_url`; any other truthy value has no such property and gives `undefined`. -/
def avatarUrlOf : Looked → MaybeString
  | Looked.undefined => MaybeString.null
  | Looked.user u => MaybeString.string u.profile_image_url
  | Looked.string s => if s = "" then MaybeString.null else MaybeString.undefined
  | Looked.builtin => MaybeString.undefined

/-- The record built for one stream (lines 118-130). -/
def combine (map : UserMap) (stream : Stream) : StreamRecord :=
  let userDetails := map.get stream.user_id
  { id := stream.id
    canal := stream.user_name
    titulo := stream.title
    categoria := stream.game_name
    avatarUrl := avatarUrlOf userDetails
    espectadores := stream.viewer_count
    enVivo := decide (stream.type = some "live")
    imagen := replace (replace stream.thumbnail_url "{width}" "440") "{height}" "248" }

/-- The array `combinedData` (lines 117-131). -/
def combinedData (rawStreams : List Stream) (users : List User) : List StreamRecord :=
  rawStreams.map (combine (userMap users))

/-- Result of the stream listing handler. -/
structure Outcome where
  response : Response
  twitchAccessToken : Option String
  calls : List Call
  deriving DecidableEq, Repr

/-- First block of the stream listing handler (lines 67-71): when `twitchAccessToken` is
falsy, `getAppAccessToken` is awaited and whatever it throws is swallowed.  The result is the
value of `twitchAccessToken` afterwards and the calls issued. -/
def ensureToken (env : Env) (p : Provider) (twitchAccessToken : Option String) :
    Option String × List Call :=
  if !truthy twitchAccessToken then
    ((getAppAccessToken env p twitchAccessToken).2, [appTokenCall env])
  else (twitchAccessToken, [])

/-- The `try` / `catch` block of the stream listing handler (lines 80-142), run with the
given value of `twitchAccessToken`: the response and the calls issued. -/
def listStreams (env : Env) (p : Provider) (twitchAccessToken : Option String) :
    Response × List Call :=
  match p.streams (streamsCall env twitchAccessToken) with
  | Except.error _ =>
    (⟨500, Body.error "Fallo interno al obtener streams de Twitch."⟩,
      [streamsCall env twitchAccessToken])
  | Except.ok rawStreams =>
    let userIds := rawStreams.map (fun stream => stream.user_id)
    if userIds.length = 0 then
      (⟨200, Body.streams []⟩, [streamsCall env twitchAccessToken])
    else
      match p.users (usersCall env twitchAccessToken userIds) with
      | Except.error _ =>
        (⟨500, Body.error "Fallo interno al obtener streams de Twitch."⟩,
          [streamsCall env twitchAccessToken, usersCall env twitchAccessToken userIds])
      | Except.ok users =>
        (⟨200, Body.streams (combinedData rawStreams users)⟩,
          [streamsCall env twitchAccessToken, usersCall env twitchAccessToken userIds])

/-- The handler of `GET /api/twitch/streams` (lines 66-143), started with the given
value of `twitchAccessToken`. -/
def streamsHandler (env : Env) (p : Provider) (twitchAccessToken : Option String) : Outcome :=
  let ensured := ensureToken env p twitchAccessToken
  if !truthy ensured.1 then
    { response :=
        ⟨503, Body.error "No se pudo obtener el token de Twitch. Intente reiniciar el servidor."⟩
      twitchAccessToken := ensured.1
      calls := ensured.2 }
  else
    let listed := listStreams env p ensured.1
    { response := listed.1
      twitchAccessToken := ensured.1
      calls := ensured.2 ++ listed.2 }

/-! ## Authorization exchange -/

/-- The `redirect_uri` parameter (lines 164-166). -/
def redirectUri (env : Env) : String :=
  match env.TWITCH_REDIRECT_URI with
  | some uri => if truthy (some uri) then uri else "http://localhost:5173/auth/twitch"
  | none => "http://localhost:5173/auth/twitch"

/-- The token exchange request (lines 155-169). -/
def exchangeCall (env : Env) (code : String) : Call :=
  Call.postToken env.TWITCH_CLIENT_ID env.TWITCH_CLIENT_SECRET
    (Grant.authorization_code code (redirectUri env))

/-- The current-user request (lines 173-178). -/
def currentUserCall (env : Env) (access_token : Option String) : Call :=
  Call.getUsers env.TWITCH_CLIENT_ID access_token none

/-- The parsed JSON body of a request: its `code` property, if any. -/
structure RequestBody where
  code : Option String
  deriving DecidableEq, Repr

/-- How a handler run ends: it sent a response, or it threw before sending one and left
the request to the framework. -/
inductive Completion
  | responded (response : Response)
  | threw (error : String)
  deriving DecidableEq, Repr

/-- Result of the authorization exchange handler. -/
structure Handled where
  completion : Completion
  calls : List Call
  deriving DecidableEq, Repr

/-- The handler of `POST /auth/twitch/callback` (lines 145-198); `body` is `req.body`.
The destructuring `const { code } = req.body` (line 146) stands before the `try` block, so
with `req.body` undefined it throws out of the handler. -/
def authCallbackHandler (env : Env) (p : Provider) (body : Option RequestBody) : Handled :=
  match body with
  | none =>
    ⟨Completion.threw "TypeError", []⟩
  | some body =>
    let code := body.code
    if !truthy code then
      ⟨Completion.responded ⟨400, Body.error "No se encontró el código de autorización."⟩, []⟩
    else
      match code with
      | none =>
        ⟨Completion.responded ⟨400, Body.error "No se encontró el código de autorización."⟩, []⟩
      | some code =>
        match p.token (exchangeCall env code) with
        | Except.error _ =>
          ⟨Completion.responded ⟨500, Body.error "Fallo en la autenticación con Twitch."⟩,
            [exchangeCall env code]⟩
        | Except.ok tokenData =>
          let access_token := tokenData.access_token
          match p.users (currentUserCall env access_token) with
          | Except.error _ =>
            ⟨Completion.responded ⟨500, Body.error "Fallo en la autenticación con Twitch."⟩,
              [exchangeCall env code, currentUserCall env access_token]⟩
          | Except.ok data =>
            match data.head? with
            | none =>
              ⟨Completion.responded ⟨500, Body.error "Fallo en la autenticación con Twitch."⟩,
                [exchangeCall env code, currentUserCall env access_token]⟩
            | some userData =>
              ⟨Completion.responded ⟨200, Body.auth true
                  ⟨userData.id, userData.display_name, userData.profile_image_url⟩
                  access_token⟩,
                [exchangeCall env code, currentUserCall env access_token]⟩

/-- Classification of a call: is it sent to the streams endpoint? -/
def Call.isStreams : Call → Bool
  | Call.getStreams _ _ _ _ => true
  | _ => false

/-- Classification of a call: is it sent to the users endpoint? -/
def Call.isUsers : Call → Bool
  | Call.getUsers _ _ _ => true
  | _ => false

/-! ## Sample inputs -/

/-- An environment without any variable set. -/
def emptyEnv : Env := ⟨none, none, none, none⟩

/-- A provider whose every call fails. -/
def failingProvider : Provider :=
  ⟨fun _ => Except.error "down", fun _ => Except.error "down", fun _ => Except.error "down"⟩

/-- A provider that issues the user token "u-token" and knows one user. -/
def authProvider : Provider :=
  ⟨fun _ => Except.ok ⟨some "u-token"⟩, fun _ => Except.error "unused",
    fun _ => Except.ok [⟨"42", "Ana", "https://img/ana.png"⟩]⟩

/-- A provider that issues the application token "app" and reports no live stream. -/
def quietProvider : Provider :=
  ⟨fun _ => Except.ok ⟨some "app"⟩, fun _ => Except.ok [], fun _ => Except.error "unused"⟩

/-- A live stream of broadcaster `user_id` with the usual thumbnail template. -/
def sampleStream (id user_id : String) : Stream :=
  { id := id
    user_id := user_id
    user_name := "canal"
    title := "titulo"
    game_name := "juego"
    viewer_count := 10
    type := some "live"
    thumbnail_url := "https://cdn/live_user-{width}x{height}.jpg" }

/-- A provider that issues the application token "app" and reports two streams of the same
broadcaster "7". -/
def twinProvider : Provider :=
  ⟨fun _ => Except.ok ⟨some "app"⟩,
    fun _ => Except.ok [sampleStream "s1" "7", sampleStream "s2" "7"],
    fun _ => Except.ok [⟨"7", "Siete", "https://img/7.png"⟩]⟩

/-- A stream whose `type` is the upper-case string "LIVE". -/
def shoutingStream : Stream :=
  { id := "b"
    user_id := "2"
    user_name := "canal"
    title := "titulo"
    game_name := "juego"
    viewer_count := 3
    type := some "LIVE"
    thumbnail_url := "https://cdn/live_user-{width}x{height}.jpg" }

/-- A stream whose thumbnail URL carries the width placeholder twice. -/
def repeatedPlaceholderStream : Stream :=
  { id := "c"
    user_id := "3"
    user_name := "canal"
    title := "titulo"
    game_name := "juego"
    viewer_count := 5
    type := some "live"
    thumbnail_url := "{width}/{width}x{height}.jpg" }

/-- A stream of a broadcaster whose identifier is the name of a member of
`Object.prototype`. -/
def inheritedNameStream : Stream :=
  { id := "d"
    user_id := "constructor"
    user_name := "canal"
    title := "titulo"
    game_name := "juego"
    viewer_count := 1
    type := some "live"
    thumbnail_url := "https://cdn/live_user-{width}x{height}.jpg" }

/-- A provider that issues the application token "app", reports the single stream
`inheritedNameStream` and returns no profile. -/
def inheritedNameProvider : Provider :=
  ⟨fun _ => Except.ok ⟨some "app"⟩, fun _ => Except.ok [inheritedNameStream],
    fun _ => Except.ok []⟩

/-- A provider that issues the application token "app", reports the streams of
broadcasters "1" and "2" (the second of type "LIVE") and returns the profile of "1" only. -/
def listingProvider : Provider :=
  ⟨fun _ => Except.ok ⟨some "app"⟩,
    fun _ => Except.ok [sampleStream "a" "1", shoutingStream],
    fun _ => Except.ok [⟨"1", "Uno", "https://img/1.png"⟩]⟩

/-- A provider that issues the application token "app" and reports the single stream
`repeatedPlaceholderStream`. -/
def repeatedPlaceholderProvider : Provider :=
  ⟨fun _ => Except.ok ⟨some "app"⟩, fun _ => Except.ok [repeatedPlaceholderStream],
    fun _ => Except.ok []⟩

/-! ## Vocabulary of the statements -/

/-- The text `s` contains the text `pat`. -/
def Contains (s pat : String) : Prop :=
  ∃ A B : String, s = A ++ pat ++ B

/-- The text `t` is `s` with its leftmost occurrence of `pat` replaced by `rep`, or `s`
itself when `pat` does not occur in `s`. -/
def IsFirstReplacement (s pat rep t : String) : Prop :=
  (¬ Contains s pat ∧ t = s) ∨
    ∃ P R : String, s = P ++ pat ++ R
      ∧ (∀ P1 R1 : String, s = P1 ++ pat ++ R1 → P.length ≤ P1.length)
      ∧ t = P ++ rep ++ R

/-- Names under which a property read on `userMap` can find something that is not an own
property: `__proto__`, the members of `Object.prototype`, and the field names of a user
object. -/
def inheritedName (k : String) : Bool :=
  k == "__proto__" || objectPrototypeMembers.contains k
    || ["id", "display_name", "profile_image_url"].contains k

/-! ## Auxiliary facts about the string primitives -/

theorem truthy_eq_false_iff (v : Option String) :
    truthy v = false ↔ v = none ∨ v = some "" := by
  cases v with
  | none => simp [truthy]
  | some s => simp [truthy]

theorem truthy_some (s : String) : truthy (some s) = true ↔ s ≠ "" := by
  simp [truthy]

theorem includesChars_iff (s sub : List Char) : includesChars s sub = true ↔ sub <:+: s := by
  induction s with
  | nil => cases sub <;> simp [includesChars]
  | cons c cs ih =>
    rw [includesChars, Bool.or_eq_true, ih, List.infix_cons_iff, List.isPrefixOf_iff_prefix]

theorem includes_iff (s sub : String) :
    includes s sub = true ↔ ∃ P S : String, s = P ++ sub ++ S := by
  rw [includes, includesChars_iff]
  constructor
  · rintro ⟨a, b, h⟩
    refine ⟨⟨a⟩, ⟨b⟩, ?_⟩
    apply String.ext
    simp [String.data_append, h]
  · rintro ⟨P, S, rfl⟩
    exact ⟨P.data, S.data, by simp [String.data_append]⟩

/-! ## CORS origin decision -/

theorem mem_allowedOrigins_ne_empty (env : Env) (a : String) (h : a ∈ allowedOrigins env) :
    a ≠ "" := by
  simp only [allowedOrigins, List.mem_filterMap] at h
  obtain ⟨o, -, ho⟩ := h
  split at ho
  · next ht =>
    subst ho
    exact (truthy_some a).1 ht
  · cases ho

/-- The allow-list holds the two development origins and a non-empty `FRONTEND_URL`, and
nothing else. -/
theorem mem_allowedOrigins_iff (env : Env) (a : String) :
    a ∈ allowedOrigins env ↔
      a = "http://localhost:5173" ∨ a = "http://localhost:5174"
        ∨ (env.FRONTEND_URL = some a ∧ a ≠ "") := by
  cases h : env.FRONTEND_URL with
  | none =>
    have hl : allowedOrigins env = ["http://localhost:5173", "http://localhost:5174"] := by
      simp [allowedOrigins, h, truthy]
    rw [hl]
    simp
  | some url =>
    by_cases hu : url = ""
    · have hl : allowedOrigins env = ["http://localhost:5173", "http://localhost:5174"] := by
        simp [allowedOrigins, h, truthy, hu]
      rw [hl]
      simp only [List.mem_cons, List.mem_singleton, List.mem_nil_iff, or_false,
        Option.some.injEq]
      constructor
      · rintro (h1 | h1)
        · exact Or.inl h1
        · exact Or.inr (Or.inl h1)
      · rintro (h1 | h1 | ⟨h1, h2⟩)
        · exact Or.inl h1
        · exact Or.inr h1
        · exact absurd (h1 ▸ hu) h2
    · have hl : allowedOrigins env
          = ["http://localhost:5173", "http://localhost:5174", url] := by
        simp [allowedOrigins, h, truthy, hu]
      rw [hl]
      simp only [List.mem_cons, List.mem_singleton, List.mem_nil_iff, or_false,
        Option.some.injEq]
      constructor
      · rintro (h1 | h1 | h1)
        · exact Or.inl h1
        · exact Or.inr (Or.inl h1)
        · exact Or.inr (Or.inr ⟨h1.symm, h1 ▸ hu⟩)
      · rintro (h1 | h1 | ⟨h1, -⟩)
        · exact Or.inl h1
        · exact Or.inr (Or.inl h1)
        · exact Or.inr (Or.inr h1.symm)

/-- C1 (as stated, refuted): with no `FRONTEND_URL` configured, a request whose Origin header is
present but empty is allowed, although that Origin is not an entry of the allow-list and contains
no entry of the allow-list. -/
theorem C1_empty_origin_allowed :
    corsOrigin emptyEnv (some "") = CorsDecision.allow
      ∧ (some "" : Option String) ≠ none
      ∧ "" ∉ allowedOrigins emptyEnv
      ∧ ∀ a ∈ allowedOrigins emptyEnv, ¬ ∃ P S : String, "" = P ++ a ++ S := by
  refine ⟨by decide, by decide, by decide, ?_⟩
  intro a ha
  rw [← includes_iff]
  revert a
  decide

/-- C1 (amended): the origin callback allows a request exactly when the Origin header is missing
or empty, or the Origin equals an entry of the allow-list, or the Origin contains an entry of the
allow-list as a substring; in every other case the callback receives the error
"No permitido por CORS". -/
theorem C1_cors_decision (env : Env) (origin : Option String) :
    (corsOrigin env origin = CorsDecision.allow ↔
        origin = none ∨ origin = some "" ∨
          ∃ o, origin = some o ∧
            (o ∈ allowedOrigins env ∨ ∃ a ∈ allowedOrigins env, ∃ P S : String, o = P ++ a ++ S))
      ∧ (corsOrigin env origin = CorsDecision.allow
          ∨ corsOrigin env origin = CorsDecision.block "No permitido por CORS") := by
  cases origin with
  | none => simp [corsOrigin, truthy]
  | some o =>
    by_cases ho : o = ""
    · subst ho
      simp [corsOrigin, truthy]
    · have hcond : ((allowedOrigins env).contains o
            || (allowedOrigins env).any (fun allowed => includes o allowed)) = true ↔
          (o ∈ allowedOrigins env ∨
            ∃ a ∈ allowedOrigins env, ∃ P S : String, o = P ++ a ++ S) := by
        simp only [Bool.or_eq_true, List.any_eq_true, includes_iff]
        simp
      have ht : (!truthy (some o)) = false := by simp [truthy, ho]
      by_cases hc : ((allowedOrigins env).contains o
            || (allowedOrigins env).any (fun allowed => includes o allowed)) = true
      · have hd : corsOrigin env (some o) = CorsDecision.allow := by
          unfold corsOrigin
          rw [ht]
          simp only [Bool.false_eq_true, if_false]
          rw [if_pos hc]
        refine ⟨?_, Or.inl hd⟩
        simp only [hd, true_iff]
        exact Or.inr (Or.inr ⟨o, rfl, hcond.1 hc⟩)
      · have hd : corsOrigin env (some o) = CorsDecision.block "No permitido por CORS" := by
          unfold corsOrigin
          rw [ht]
          simp only [Bool.false_eq_true, if_false]
          rw [if_neg hc]
        refine ⟨?_, Or.inr hd⟩
        simp only [hd, false_iff, reduceCtorEq]
        rintro (h | h | ⟨o', h, h'⟩)
        · cases h
        · exact ho (Option.some.inj h)
        · cases h
          exact hc (hcond.2 h')

/-! ## Token manager -/

/-- C9: whatever `twitchAccessToken` held before, after `getAppAccessToken` it holds the
`access_token` of the provider's answer when the token request succeeded (and the function
completes normally), and it is `null` and the function throws when the token request failed;
the result is the same for any two prior values. -/
theorem C9_getAppAccessToken (env : Env) (p : Provider) (prior : Option String) :
    (∀ response, p.token (appTokenCall env) = Except.ok response →
        getAppAccessToken env p prior = (Except.ok (), response.access_token))
      ∧ (∀ e, p.token (appTokenCall env) = Except.error e →
        (getAppAccessToken env p prior).2 = none
          ∧ ∃ msg, (getAppAccessToken env p prior).1 = Except.error msg)
      ∧ ∀ other, getAppAccessToken env p other = getAppAccessToken env p prior := by
  refine ⟨?_, ?_, ?_⟩
  · intro response h
    simp [getAppAccessToken, h]
  · intro e h
    simp [getAppAccessToken, h]
  · intro other
    rfl

/-- C9, instance: with a stale token stored, a failing provider leaves `null` and an error,
and a provider answering token "fresh" leaves "fresh". -/
theorem C9_getAppAccessToken_witness :
    ((getAppAccessToken emptyEnv failingProvider (some "stale")).2 = none
        ∧ ∃ msg, (getAppAccessToken emptyEnv failingProvider (some "stale")).1
            = Except.error msg)
      ∧ getAppAccessToken emptyEnv
          ⟨fun _ => Except.ok ⟨some "fresh"⟩, fun _ => Except.error "down",
            fun _ => Except.error "down"⟩ (some "stale")
          = (Except.ok (), some "fresh") :=
  ⟨(C9_getAppAccessToken emptyEnv failingProvider (some "stale")).2.1 "down" rfl,
    (C9_getAppAccessToken emptyEnv
      ⟨fun _ => Except.ok ⟨some "fresh"⟩, fun _ => Except.error "down",
        fun _ => Except.error "down"⟩ (some "stale")).1 ⟨some "fresh"⟩ rfl⟩

/-! ## Stream listing: token guard -/

/-- C2: when the stored token is absent (falsy) and the token request fails, the stream
listing handler answers 503, not 500, and the only outbound call is the token request: nothing
is sent to the streams or users endpoints. -/
theorem C2_streams_503 (env : Env) (p : Provider) (twitchAccessToken : Option String) (e : ApiError)
    (habsent : truthy twitchAccessToken = false)
    (hfail : p.token (appTokenCall env) = Except.error e) :
    (streamsHandler env p twitchAccessToken).response.status = 503
      ∧ (streamsHandler env p twitchAccessToken).response.status ≠ 500
      ∧ (streamsHandler env p twitchAccessToken).calls = [appTokenCall env]
      ∧ ∀ c ∈ (streamsHandler env p twitchAccessToken).calls,
          c.isStreams = false ∧ c.isUsers = false := by
  have h : streamsHandler env p twitchAccessToken =
      { response :=
          ⟨503, Body.error "No se pudo obtener el token de Twitch. Intente reiniciar el servidor."⟩
        twitchAccessToken := none
        calls := [appTokenCall env] } := by
    have he : ensureToken env p twitchAccessToken = (none, [appTokenCall env]) := by
      simp [ensureToken, habsent, getAppAccessToken, hfail]
    simp [streamsHandler, he, truthy]
  rw [h]
  simp [appTokenCall, Call.isStreams, Call.isUsers]

/-- C2, instance: no token stored and a provider that is down. -/
theorem C2_streams_503_witness :
    (streamsHandler emptyEnv failingProvider none).response.status = 503
      ∧ (streamsHandler emptyEnv failingProvider none).response.status ≠ 500
      ∧ (streamsHandler emptyEnv failingProvider none).calls = [appTokenCall emptyEnv]
      ∧ ∀ c ∈ (streamsHandler emptyEnv failingProvider none).calls,
          c.isStreams = false ∧ c.isUsers = false :=
  C2_streams_503 emptyEnv failingProvider none "down" rfl rfl

/-! ## Authorization exchange -/

/-- C3 (as stated, refuted): a request on which no body was parsed (`req.body` undefined)
carries no code, yet the handler does not answer 400: the destructuring before the `try`
block throws and the handler sends no response. -/
theorem C3_unparsed_body_throws :
    authCallbackHandler emptyEnv failingProvider none = ⟨Completion.threw "TypeError", []⟩
      ∧ ∀ body : Body,
          (authCallbackHandler emptyEnv failingProvider none).completion
            ≠ Completion.responded ⟨400, body⟩ := by
  refine ⟨rfl, ?_⟩
  intro body h
  cases h

/-- C3 (amended): when the parsed body is an object that carries no `code` or an empty one,
the authorization exchange handler answers 400 with an error body; and for every request
without a code, whether a body was parsed or not, the handler issues no outbound call. -/
theorem C3_missing_code (env : Env) (p : Provider) (body : Option RequestBody)
    (hcode : ∀ b, body = some b → b.code = none ∨ b.code = some "") :
    (authCallbackHandler env p body).calls = []
      ∧ ∀ b, body = some b →
          authCallbackHandler env p body
            = ⟨Completion.responded
                ⟨400, Body.error "No se encontró el código de autorización."⟩, []⟩ := by
  cases body with
  | none => exact ⟨rfl, fun b hb => by cases hb⟩
  | some b =>
    have h : authCallbackHandler env p (some b)
        = ⟨Completion.responded
            ⟨400, Body.error "No se encontró el código de autorización."⟩, []⟩ := by
      rcases hcode b rfl with hc | hc
      · simp [authCallbackHandler, hc, truthy]
      · simp [authCallbackHandler, hc, truthy]
    exact ⟨by rw [h], fun _ _ => h⟩

/-- C3 (amended), instance: a parsed body with an empty `code`, against a provider that
would answer. -/
theorem C3_missing_code_witness :
    (authCallbackHandler emptyEnv authProvider (some ⟨some ""⟩)).calls = []
      ∧ authCallbackHandler emptyEnv authProvider (some ⟨some ""⟩)
          = ⟨Completion.responded
              ⟨400, Body.error "No se encontró el código de autorización."⟩, []⟩ :=
  ⟨(C3_missing_code emptyEnv authProvider (some ⟨some ""⟩)
      (fun b hb => Or.inr (by cases hb; rfl))).1,
    (C3_missing_code emptyEnv authProvider (some ⟨some ""⟩)
      (fun b hb => Or.inr (by cases hb; rfl))).2 ⟨some ""⟩ rfl⟩

/-- C8: for a non-empty code, if the token exchange and the current-user request both succeed
and the latter returns at least one record, the answer is 200 with `success = true`, the id,
display name and profile image URL of the first record, and the access token exactly as the
token exchange returned it; if the token exchange fails, or the current-user request fails, or
it returns no record, the answer is 500 with the error body only. -/
theorem C8_auth_exchange (env : Env) (p : Provider) (code : String) (hcode : code ≠ "") :
    (∀ tokenData userData rest,
        p.token (exchangeCall env code) = Except.ok tokenData →
        p.users (currentUserCall env tokenData.access_token) = Except.ok (userData :: rest) →
        (authCallbackHandler env p (some ⟨some code⟩)).completion
          = Completion.responded ⟨200, Body.auth true
              ⟨userData.id, userData.display_name, userData.profile_image_url⟩
              tokenData.access_token⟩)
      ∧ (∀ e, p.token (exchangeCall env code) = Except.error e →
        (authCallbackHandler env p (some ⟨some code⟩)).completion
          = Completion.responded ⟨500, Body.error "Fallo en la autenticación con Twitch."⟩)
      ∧ (∀ tokenData e,
        p.token (exchangeCall env code) = Except.ok tokenData →
        p.users (currentUserCall env tokenData.access_token) = Except.error e →
        (authCallbackHandler env p (some ⟨some code⟩)).completion
          = Completion.responded ⟨500, Body.error "Fallo en la autenticación con Twitch."⟩)
      ∧ (∀ tokenData,
        p.token (exchangeCall env code) = Except.ok tokenData →
        p.users (currentUserCall env tokenData.access_token) = Except.ok [] →
        (authCallbackHandler env p (some ⟨some code⟩)).completion
          = Completion.responded ⟨500, Body.error "Fallo en la autenticación con Twitch."⟩) := by
  have ht : (!truthy (some code)) = false := by simp [truthy, hcode]
  refine ⟨?_, ?_, ?_, ?_⟩
  · intro tokenData userData rest h1 h2
    simp [authCallbackHandler, ht, h1, h2]
  · intro e h1
    simp [authCallbackHandler, ht, h1]
  · intro tokenData e h1 h2
    simp [authCallbackHandler, ht, h1, h2]
  · intro tokenData h1 h2
    simp [authCallbackHandler, ht, h1, h2]

/-- C8, instance: code "abc" against a provider that answers both calls, and against one that
is down. -/
theorem C8_auth_exchange_witness :
    (authCallbackHandler emptyEnv authProvider (some ⟨some "abc"⟩)).completion
        = Completion.responded
            ⟨200, Body.auth true ⟨"42", "Ana", "https://img/ana.png"⟩ (some "u-token")⟩
      ∧ (authCallbackHandler emptyEnv failingProvider (some ⟨some "abc"⟩)).completion
        = Completion.responded ⟨500, Body.error "Fallo en la autenticación con Twitch."⟩ :=
  ⟨(C8_auth_exchange emptyEnv authProvider "abc" (by decide)).1 ⟨some "u-token"⟩
      ⟨"42", "Ana", "https://img/ana.png"⟩ [] rfl rfl,
    (C8_auth_exchange emptyEnv failingProvider "abc" (by decide)).2.1 "down" rfl⟩

/-! ## Stream listing: the calls issued -/

theorem ensureToken_calls (env : Env) (p : Provider) (tok : Option String) :
    ∀ c ∈ (ensureToken env p tok).2, c = appTokenCall env := by
  intro c hc
  unfold ensureToken at hc
  split at hc <;> simp at hc
  exact hc

theorem streamsHandler_of_truthy (env : Env) (p : Provider) (tok : Option String)
    (h : truthy (ensureToken env p tok).1 = true) :
    streamsHandler env p tok =
      { response := (listStreams env p (ensureToken env p tok).1).1
        twitchAccessToken := (ensureToken env p tok).1
        calls := (ensureToken env p tok).2 ++ (listStreams env p (ensureToken env p tok).1).2 } := by
  simp [streamsHandler, h]

theorem streamsHandler_of_falsy (env : Env) (p : Provider) (tok : Option String)
    (h : truthy (ensureToken env p tok).1 = false) :
    (streamsHandler env p tok).calls = (ensureToken env p tok).2 := by
  simp [streamsHandler, h]

theorem listStreams_calls_head (env : Env) (p : Provider) (t : Option String) :
    ∃ rest, (listStreams env p t).2 = streamsCall env t :: rest
      ∧ ∀ c ∈ rest, c.isUsers = true := by
  unfold listStreams
  split
  · exact ⟨[], rfl, by simp⟩
  · dsimp only
    split
    · exact ⟨[], rfl, by simp⟩
    · split
      · exact ⟨_, rfl, by simp [usersCall, Call.isUsers]⟩
      · exact ⟨_, rfl, by simp [usersCall, Call.isUsers]⟩

/-- A streams request recorded in the handler's calls carries the token held after the first
block, and that token is truthy. -/
theorem token_of_streamsCall_mem (env : Env) (p : Provider) (tok t : Option String)
    (h : streamsCall env t ∈ (streamsHandler env p tok).calls) :
    truthy (ensureToken env p tok).1 = true ∧ (ensureToken env p tok).1 = t := by
  have hne : streamsCall env t ∉ (ensureToken env p tok).2 := by
    intro hmem
    have := ensureToken_calls env p tok _ hmem
    simp [streamsCall, appTokenCall] at this
  cases ht : truthy (ensureToken env p tok).1 with
  | false =>
    rw [streamsHandler_of_falsy env p tok ht] at h
    exact absurd h hne
  | true =>
    refine ⟨rfl, ?_⟩
    rw [streamsHandler_of_truthy env p tok ht] at h
    simp only [List.mem_append] at h
    rcases h with h | h
    · exact absurd h hne
    · obtain ⟨rest, hrest, husers⟩ := listStreams_calls_head env p (ensureToken env p tok).1
      rw [hrest, List.mem_cons] at h
      rcases h with h | h
      · simp only [streamsCall, Call.getStreams.injEq, and_true, true_and] at h
        exact h.symm
      · have := husers _ h
        simp [streamsCall, Call.isUsers] at this

/-- C4: whenever the handler sent the streams request and the provider answered it
successfully with zero streams, the response is 200 with the empty array and no call to the
users endpoint was issued. -/
theorem C4_zero_streams (env : Env) (p : Provider) (twitchAccessToken t : Option String)
    (hsent : streamsCall env t ∈ (streamsHandler env p twitchAccessToken).calls)
    (hzero : p.streams (streamsCall env t) = Except.ok []) :
    (streamsHandler env p twitchAccessToken).response = ⟨200, Body.streams []⟩
      ∧ ∀ c ∈ (streamsHandler env p twitchAccessToken).calls, c.isUsers = false := by
  obtain ⟨ht, rfl⟩ := token_of_streamsCall_mem env p twitchAccessToken t hsent
  have hl : listStreams env p (ensureToken env p twitchAccessToken).1
      = (⟨200, Body.streams []⟩, [streamsCall env (ensureToken env p twitchAccessToken).1]) := by
    simp [listStreams, hzero]
  rw [streamsHandler_of_truthy env p twitchAccessToken ht, hl]
  refine ⟨rfl, ?_⟩
  intro c hc
  simp only [List.mem_append, List.mem_singleton] at hc
  rcases hc with hc | hc
  · rw [ensureToken_calls env p twitchAccessToken c hc]
    rfl
  · rw [hc]
    rfl

/-- C4, instance: no token stored, the provider issues one and reports no live stream. -/
theorem C4_zero_streams_witness :
    (streamsHandler emptyEnv quietProvider none).response = ⟨200, Body.streams []⟩
      ∧ ∀ c ∈ (streamsHandler emptyEnv quietProvider none).calls, c.isUsers = false :=
  C4_zero_streams emptyEnv quietProvider none (some "app") (by decide) rfl

/-- C10 (as stated, refuted): when two streams share the broadcaster "7", the `id` parameter
of the users request is ["7", "7"]: the identifier is sent twice. -/
theorem C10_duplicate_ids_sent :
    (streamsHandler emptyEnv twinProvider none).calls
        = [appTokenCall emptyEnv, streamsCall emptyEnv (some "app"),
            Call.getUsers none (some "app") (some ["7", "7"])]
      ∧ ¬ (["7", "7"] : List String).Nodup := by
  constructor
  · decide
  · decide

/-- C10 (amended): whenever the handler sent the streams request and the provider answered it
with a non-empty list of streams, exactly one call goes to the users endpoint, and its `id`
parameter is the list of the streams' `user_id` values in stream order, one entry per stream:
an identifier is in the list exactly when it is the `user_id` of one of the streams, and it
occurs as many times as there are streams with that `user_id`. -/
theorem C10_user_ids (env : Env) (p : Provider) (twitchAccessToken t : Option String)
    (rawStreams : List Stream)
    (hsent : streamsCall env t ∈ (streamsHandler env p twitchAccessToken).calls)
    (hok : p.streams (streamsCall env t) = Except.ok rawStreams)
    (hne : rawStreams ≠ []) :
    (streamsHandler env p twitchAccessToken).calls.filter Call.isUsers
        = [Call.getUsers env.TWITCH_CLIENT_ID t
            (some (rawStreams.map (fun stream => stream.user_id)))]
      ∧ (rawStreams.map (fun stream => stream.user_id)).length = rawStreams.length
      ∧ (∀ id, id ∈ rawStreams.map (fun stream => stream.user_id)
          ↔ ∃ stream ∈ rawStreams, stream.user_id = id)
      ∧ ∀ id, (rawStreams.map (fun stream => stream.user_id)).count id
          = rawStreams.countP (fun stream => stream.user_id == id) := by
  obtain ⟨ht, rfl⟩ := token_of_streamsCall_mem env p twitchAccessToken t hsent
  refine ⟨?_, by simp, by simp, ?_⟩
  · have hpre : (ensureToken env p twitchAccessToken).2.filter Call.isUsers = [] := by
      rw [List.filter_eq_nil_iff]
      intro c hc
      rw [ensureToken_calls env p twitchAccessToken c hc]
      simp [appTokenCall, Call.isUsers]
    have hl : (listStreams env p (ensureToken env p twitchAccessToken).1).2
        = [streamsCall env (ensureToken env p twitchAccessToken).1,
            usersCall env (ensureToken env p twitchAccessToken).1
              (rawStreams.map (fun stream => stream.user_id))] := by
      unfold listStreams
      rw [hok]
      dsimp only
      rw [if_neg (by simpa using hne)]
      split <;> rfl
    rw [streamsHandler_of_truthy env p twitchAccessToken ht]
    simp only [List.filter_append, hpre, hl, List.nil_append]
    simp [List.filter, streamsCall, usersCall, Call.isUsers]
  · intro id
    rw [List.count, List.countP_map]
    rfl

/-- C10 (amended), instance: the two streams of broadcaster "7". -/
theorem C10_user_ids_witness :
    (streamsHandler emptyEnv twinProvider none).calls.filter Call.isUsers
        = [Call.getUsers emptyEnv.TWITCH_CLIENT_ID (some "app")
            (some ([sampleStream "s1" "7", sampleStream "s2" "7"].map
              (fun stream => stream.user_id)))] :=
  (C10_user_ids emptyEnv twinProvider none (some "app")
    [sampleStream "s1" "7", sampleStream "s2" "7"] (by decide) rfl (by decide)).1

/-! ## Stream listing: the records -/

theorem userMap_append_singleton (users : List User) (u : User) :
    userMap (users ++ [u]) = (userMap users).set u := by
  simp [userMap, List.foldl_append]

/-- The own property under a key other than `__proto__` is the last user carrying that
`id`; there is never an own property `__proto__`. -/
theorem userMap_own (users : List User) (k : String) :
    (userMap users).own k
      = if k = "__proto__" then none else users.reverse.find? (fun u => u.id == k) := by
  induction users using List.reverseRecOn with
  | nil =>
    simp [userMap, UserMap.empty]
  | append_singleton users u ih =>
    rw [userMap_append_singleton, List.reverse_append, List.reverse_singleton,
      List.singleton_append, List.find?_cons]
    unfold UserMap.set
    by_cases hu : u.id = "__proto__"
    · rw [if_pos hu]
      show (userMap users).own k = _
      rw [ih]
      by_cases hk : k = "__proto__"
      · simp [hk]
      · have h2 : (u.id == k) = false := by
          rw [hu]
          simpa using fun h3 => hk h3.symm
        simp [hk, h2]
    · rw [if_neg hu]
      show (if k = u.id then some u else (userMap users).own k) = _
      rw [ih]
      by_cases hk : k = u.id
      · subst hk
        simp [hu]
      · have h2 : (u.id == k) = false := by
          simpa using fun h3 => hk h3.symm
        simp [hk, h2]

/-- The prototype is the last user whose `id` is `__proto__`, if any. -/
theorem userMap_proto (users : List User) :
    (userMap users).proto = users.reverse.find? (fun u => u.id == "__proto__") := by
  induction users using List.reverseRecOn with
  | nil =>
    simp [userMap, UserMap.empty]
  | append_singleton users u ih =>
    rw [userMap_append_singleton, List.reverse_append, List.reverse_singleton,
      List.singleton_append, List.find?_cons]
    unfold UserMap.set
    by_cases hu : u.id = "__proto__"
    · rw [if_pos hu]
      simp [hu]
    · rw [if_neg hu]
      show (userMap users).proto = _
      rw [ih]
      have h2 : (u.id == "__proto__") = false := by
        simpa using hu
      simp [h2]

/-- A key under which a user was stored reads back the last user stored under it. -/
theorem userMap_get_of_find (users : List User) (k : String) (u : User)
    (h : users.reverse.find? (fun v => v.id == k) = some u) :
    (userMap users).get k = Looked.user u := by
  unfold UserMap.get
  by_cases hk : k = "__proto__"
  · rw [if_pos hk, userMap_proto, ← hk, h]
  · rw [if_neg hk, userMap_own, if_neg hk, h]

/-- A key under which no user was stored and which is not an inherited name reads
`undefined`. -/
theorem userMap_get_of_not_inherited (users : List User) (k : String)
    (h : users.reverse.find? (fun v => v.id == k) = none) (hk : inheritedName k = false) :
    (userMap users).get k = Looked.undefined := by
  simp only [inheritedName, Bool.or_eq_false_iff, beq_eq_false_iff_ne, ne_eq] at hk
  obtain ⟨⟨hproto, hmember⟩, hfield⟩ := hk
  have hget : objectPrototypeGet k = Looked.undefined := by
    simp only [objectPrototypeGet, hmember, Bool.false_eq_true, if_false]
  simp only [List.contains_cons, List.contains_nil, Bool.or_false, Bool.or_eq_false_iff,
    beq_eq_false_iff_ne, ne_eq] at hfield
  unfold UserMap.get
  rw [if_neg hproto, userMap_own, if_neg hproto, h]
  cases (userMap users).proto with
  | none => exact hget
  | some u =>
    show (if k = "id" then _ else _) = _
    rw [if_neg hfield.1, if_neg hfield.2.1, if_neg hfield.2.2]
    exact hget

/-- Property reads on the object built from a single profile whose `id` is `__proto__`:
the profile becomes the prototype, its fields and the members of `Object.prototype` are
inherited, and any other key reads `undefined`. -/
theorem userMap_proto_profile_reads :
    (userMap [⟨"__proto__", "", "https://img/p.png"⟩]).get "__proto__"
        = Looked.user ⟨"__proto__", "", "https://img/p.png"⟩
      ∧ (userMap [⟨"__proto__", "", "https://img/p.png"⟩]).get "id" = Looked.string "__proto__"
      ∧ (userMap [⟨"__proto__", "", "https://img/p.png"⟩]).get "display_name"
          = Looked.string ""
      ∧ (userMap [⟨"__proto__", "", "https://img/p.png"⟩]).get "profile_image_url"
          = Looked.string "https://img/p.png"
      ∧ (userMap [⟨"__proto__", "", "https://img/p.png"⟩]).get "toString" = Looked.builtin
      ∧ (userMap [⟨"__proto__", "", "https://img/p.png"⟩]).get "99" = Looked.undefined
      ∧ (userMap []).get "__proto__" = Looked.builtin
      ∧ avatarUrlOf (Looked.string "__proto__") = MaybeString.undefined
      ∧ avatarUrlOf (Looked.string "") = MaybeString.null
      ∧ avatarUrlOf Looked.builtin = MaybeString.undefined := by
  refine ⟨by decide, by decide, by decide, by decide, by decide, by decide, by decide,
    by decide, by decide, by decide⟩

theorem combinedData_getElem? (rawStreams : List Stream) (users : List User) (i : Nat) :
    (combinedData rawStreams users)[i]? = rawStreams[i]?.map (combine (userMap users)) := by
  simp [combinedData]

/-- When the streams request was sent, answered with a non-empty list, and the users request
for the streams' identifiers was answered, the handler sends the combined records. -/
theorem streamsHandler_records (env : Env) (p : Provider) (twitchAccessToken t : Option String)
    (rawStreams : List Stream) (users : List User)
    (hsent : streamsCall env t ∈ (streamsHandler env p twitchAccessToken).calls)
    (hstreams : p.streams (streamsCall env t) = Except.ok rawStreams)
    (hne : rawStreams ≠ [])
    (husers : p.users (usersCall env t (rawStreams.map (fun stream => stream.user_id)))
      = Except.ok users) :
    (streamsHandler env p twitchAccessToken).response
      = ⟨200, Body.streams (combinedData rawStreams users)⟩ := by
  obtain ⟨ht, rfl⟩ := token_of_streamsCall_mem env p twitchAccessToken t hsent
  rw [streamsHandler_of_truthy env p twitchAccessToken ht]
  show (listStreams env p (ensureToken env p twitchAccessToken).1).1 = _
  unfold listStreams
  rw [hstreams]
  dsimp only
  rw [if_neg (by simpa using hne), husers]

/-- C5 (as stated, refuted): for a stream whose `user_id` is "constructor" and no returned
profile, the lookup finds the inherited member of `Object.prototype`, and the record's
`avatarUrl` is `undefined` (the key is left out of the JSON), not `null`. -/
theorem C5_inherited_name_undefined :
    (streamsHandler emptyEnv inheritedNameProvider none).response
        = ⟨200, Body.streams
            [{ id := "d"
               canal := "canal"
               titulo := "titulo"
               categoria := "juego"
               avatarUrl := MaybeString.undefined
               espectadores := 1
               enVivo := true
               imagen := "https://cdn/live_user-440x248.jpg" }]⟩
      ∧ MaybeString.undefined ≠ MaybeString.null := by
  constructor
  · decide
  · decide

/-- C5 (amended): when the streams request and the users request are answered, the handler
sends one record per stream, at the stream's position.  If some returned profile has the
stream's `user_id` as its `id`, the record's `avatarUrl` is the `profile_image_url` of such a
profile (the last one in the provider's list, hence the only one when identifiers are not
repeated); if no returned profile has that `id` and the `user_id` is not an inherited name
(`__proto__`, a member of `Object.prototype`, a field name of a user object), the record's
`avatarUrl` is null. -/
theorem C5_avatarUrl (env : Env) (p : Provider) (twitchAccessToken t : Option String)
    (rawStreams : List Stream) (users : List User)
    (hsent : streamsCall env t ∈ (streamsHandler env p twitchAccessToken).calls)
    (hstreams : p.streams (streamsCall env t) = Except.ok rawStreams)
    (hne : rawStreams ≠ [])
    (husers : p.users (usersCall env t (rawStreams.map (fun stream => stream.user_id)))
      = Except.ok users) :
    ∃ records : List StreamRecord,
      (streamsHandler env p twitchAccessToken).response = ⟨200, Body.streams records⟩
        ∧ records.length = rawStreams.length
        ∧ ∀ (i : Nat) (stream : Stream), rawStreams[i]? = some stream →
          ∃ record : StreamRecord, records[i]? = some record
            ∧ ((∃ u ∈ users, u.id = stream.user_id) →
                ∃ u ∈ users, u.id = stream.user_id
                  ∧ record.avatarUrl = MaybeString.string u.profile_image_url)
            ∧ (∀ u ∈ users, u.id = stream.user_id →
                (∀ v ∈ users, v.id = stream.user_id → v = u) →
                record.avatarUrl = MaybeString.string u.profile_image_url)
            ∧ (∀ u, users.reverse.find? (fun v => v.id == stream.user_id) = some u →
                record.avatarUrl = MaybeString.string u.profile_image_url)
            ∧ ((∀ u ∈ users, u.id ≠ stream.user_id) → inheritedName stream.user_id = false →
                record.avatarUrl = MaybeString.null) := by
  refine ⟨combinedData rawStreams users,
    streamsHandler_records env p twitchAccessToken t rawStreams users hsent hstreams hne husers,
    by simp [combinedData], ?_⟩
  intro i stream hi
  refine ⟨combine (userMap users) stream, by rw [combinedData_getElem?, hi]; rfl, ?_⟩
  have hlast : ∀ u, users.reverse.find? (fun v => v.id == stream.user_id) = some u →
      (combine (userMap users) stream).avatarUrl = MaybeString.string u.profile_image_url := by
    intro u hu
    show avatarUrlOf ((userMap users).get stream.user_id) = _
    rw [userMap_get_of_find users stream.user_id u hu]
    rfl
  have hex : (∃ u ∈ users, u.id = stream.user_id) →
      ∃ u ∈ users, u.id = stream.user_id
        ∧ (combine (userMap users) stream).avatarUrl
            = MaybeString.string u.profile_image_url := by
    rintro ⟨u, hu, hid⟩
    cases hf : users.reverse.find? (fun v => v.id == stream.user_id) with
    | none =>
      rw [List.find?_eq_none] at hf
      have := hf u (List.mem_reverse.2 hu)
      simp [hid] at this
    | some v =>
      have hv := List.find?_some hf
      have hm := List.mem_reverse.1 (List.mem_of_find?_eq_some hf)
      exact ⟨v, hm, by simpa using hv, hlast v hf⟩
  refine ⟨hex, ?_, hlast, ?_⟩
  · intro u hu hid huniq
    obtain ⟨v, hv, hvid, hav⟩ := hex ⟨u, hu, hid⟩
    rw [hav, huniq v hv hvid]
  · intro hnone hk
    have hf : users.reverse.find? (fun v => v.id == stream.user_id) = none := by
      rw [List.find?_eq_none]
      intro v hv
      simpa using hnone v (List.mem_reverse.1 hv)
    show avatarUrlOf ((userMap users).get stream.user_id) = _
    rw [userMap_get_of_not_inherited users stream.user_id hf hk]
    rfl

/-- C5 (amended), instance: broadcaster "1" has a profile, broadcaster "2" has none. -/
theorem C5_avatarUrl_witness :
    ∃ records : List StreamRecord,
      (streamsHandler emptyEnv listingProvider none).response = ⟨200, Body.streams records⟩
        ∧ records.length = 2
        ∧ ∃ r1 r2 : StreamRecord, records[0]? = some r1
            ∧ r1.avatarUrl = MaybeString.string "https://img/1.png"
            ∧ records[1]? = some r2
            ∧ r2.avatarUrl = MaybeString.null := by
  obtain ⟨records, hresp, hlen, h⟩ :=
    C5_avatarUrl emptyEnv listingProvider none (some "app")
      [sampleStream "a" "1", shoutingStream] [⟨"1", "Uno", "https://img/1.png"⟩]
      (by decide) rfl (by decide) rfl
  obtain ⟨r1, h1, -, h1u, -, -⟩ := h 0 (sampleStream "a" "1") rfl
  obtain ⟨r2, h2, -, -, -, h2n⟩ := h 1 shoutingStream rfl
  refine ⟨records, hresp, hlen, r1, r2, h1, ?_, h2, ?_⟩
  · exact h1u ⟨"1", "Uno", "https://img/1.png"⟩ (by simp) (by decide)
      (by intro v hv _; simpa using hv)
  · apply h2n
    · intro u hu
      simp only [List.mem_singleton] at hu
      subst hu
      decide
    · decide

/-- C7: when the streams request and the users request are answered, the handler sends one
record per stream, at the stream's position, and the record's `enVivo` is true exactly when
the stream's `type` is the string "live"; in particular a missing `type`, "" and "LIVE" give
false. -/
theorem C7_enVivo (env : Env) (p : Provider) (twitchAccessToken t : Option String)
    (rawStreams : List Stream) (users : List User)
    (hsent : streamsCall env t ∈ (streamsHandler env p twitchAccessToken).calls)
    (hstreams : p.streams (streamsCall env t) = Except.ok rawStreams)
    (hne : rawStreams ≠ [])
    (husers : p.users (usersCall env t (rawStreams.map (fun stream => stream.user_id)))
      = Except.ok users) :
    ∃ records : List StreamRecord,
      (streamsHandler env p twitchAccessToken).response = ⟨200, Body.streams records⟩
        ∧ records.length = rawStreams.length
        ∧ ∀ (i : Nat) (stream : Stream), rawStreams[i]? = some stream →
          ∃ record : StreamRecord, records[i]? = some record
            ∧ (record.enVivo = true ↔ stream.type = some "live")
            ∧ (stream.type = none ∨ stream.type = some "" ∨ stream.type = some "LIVE" →
                record.enVivo = false) := by
  refine ⟨combinedData rawStreams users,
    streamsHandler_records env p twitchAccessToken t rawStreams users hsent hstreams hne husers,
    by simp [combinedData], ?_⟩
  intro i stream hi
  refine ⟨combine (userMap users) stream, by rw [combinedData_getElem?, hi]; rfl, ?_, ?_⟩
  · simp [combine]
  · rintro (h | h | h) <;> simp [combine, h]

/-- C7, instance: a stream of type "live" and one of type "LIVE". -/
theorem C7_enVivo_witness :
    ∃ records : List StreamRecord,
      (streamsHandler emptyEnv listingProvider none).response = ⟨200, Body.streams records⟩
        ∧ records.length = 2
        ∧ ∃ r1 r2 : StreamRecord, records[0]? = some r1 ∧ r1.enVivo = true
            ∧ records[1]? = some r2 ∧ r2.enVivo = false := by
  obtain ⟨records, hresp, hlen, h⟩ :=
    C7_enVivo emptyEnv listingProvider none (some "app")
      [sampleStream "a" "1", shoutingStream] [⟨"1", "Uno", "https://img/1.png"⟩]
      (by decide) rfl (by decide) rfl
  obtain ⟨r1, h1, h1e, -⟩ := h 0 (sampleStream "a" "1") rfl
  obtain ⟨r2, h2, -, h2e⟩ := h 1 shoutingStream rfl
  exact ⟨records, hresp, hlen, r1, r2, h1, h1e.2 rfl, h2, h2e (Or.inr (Or.inr rfl))⟩

/-! ## Thumbnail placeholders -/

/-- A pattern whose first character does not recur in it cannot start inside `t` and run
into a following copy of itself. -/
theorem no_self_overlap {a : Char} {q t R : List Char} (ha : a ∉ q)
    (h : (a :: q) <+: t ++ (a :: q) ++ R) : t = [] ∨ (a :: q) <+: t := by
  have h1 : t <+: t ++ (a :: q) ++ R := by
    rw [List.append_assoc]
    exact List.prefix_append _ _
  rcases List.prefix_or_prefix_of_prefix h h1 with h2 | ⟨u, hu⟩
  · exact Or.inr h2
  · cases t with
    | nil => exact Or.inl rfl
    | cons b t1 =>
      right
      simp only [List.cons_append, List.cons.injEq] at hu
      obtain ⟨rfl, hq⟩ := hu
      cases u with
      | nil =>
        rw [List.append_nil] at hq
        rw [hq]
      | cons c u1 =>
        exfalso
        have h3 : (b :: t1) ++ (c :: u1) <+: (b :: t1) ++ ((b :: q) ++ R) := by
          have : (b :: t1) ++ (c :: u1) = b :: q := by simp [hq]
          rw [this, ← List.append_assoc]
          exact h
        rw [List.prefix_append_right_inj] at h3
        simp only [List.cons_append, List.cons_prefix_cons] at h3
        apply ha
        rw [← hq, ← h3.1]
        simp

/-- When no occurrence of `pat` starts inside `P`, replacing the first occurrence in
`P ++ pat ++ R` replaces the displayed one. -/
theorem replaceChars_first (pat rep R : List Char) :
    ∀ P : List Char, (∀ t, t <:+ P → t ≠ [] → ¬ pat <+: t ++ pat ++ R) →
      replaceChars (P ++ pat ++ R) pat rep = P ++ rep ++ R := by
  intro P
  induction P with
  | nil =>
    intro _
    cases h : pat ++ R with
    | nil =>
      have hp : pat = [] := (List.append_eq_nil.1 h).1
      have hR : R = [] := (List.append_eq_nil.1 h).2
      subst hp hR
      simp [replaceChars]
    | cons c cs =>
      have hpre : pat.isPrefixOf (c :: cs) = true := by
        rw [List.isPrefixOf_iff_prefix, ← h]
        exact List.prefix_append _ _
      have hdrop : (c :: cs).drop pat.length = R := by
        rw [← h]
        exact List.drop_left _ _
      simp only [List.nil_append]
      rw [h, replaceChars, if_pos hpre, hdrop]
  | cons c P1 ih =>
    intro hP
    have hno : ¬ pat.isPrefixOf (c :: (P1 ++ pat ++ R)) = true := by
      rw [List.isPrefixOf_iff_prefix]
      have := hP (c :: P1) (List.suffix_refl _) (by simp)
      simpa using this
    have hrec := ih (fun t ht hne => hP t (ht.trans (List.suffix_cons c P1)) hne)
    simp only [List.cons_append]
    rw [replaceChars, if_neg hno]
    simp only [List.append_assoc] at hrec ⊢
    rw [hrec]

/-- First-occurrence replacement of a pattern whose first character does not recur in it,
when the text before the displayed occurrence does not contain the pattern. -/
theorem replaceChars_displayed {a : Char} {q : List Char} (ha : a ∉ q)
    (P rep R : List Char) (hP : ¬ (a :: q) <:+: P) :
    replaceChars (P ++ (a :: q) ++ R) (a :: q) rep = P ++ rep ++ R := by
  apply replaceChars_first
  intro t ht hne hpre
  rcases no_self_overlap ha hpre with h | h
  · exact hne h
  · exact hP (List.infix_iff_prefix_suffix.2 ⟨t, h, ht⟩)

/-- An occurrence of `l` in `A ++ b :: C` avoids `b` when `b` is not a character of `l`. -/
theorem occurrence_avoids_char {l A C : List Char} {b : Char} (hb : b ∉ l)
    (h : l <:+: A ++ b :: C) : l <:+: A ∨ l <:+: C := by
  induction A with
  | nil =>
    rw [List.nil_append, List.infix_cons_iff] at h
    rcases h with h | h
    · cases l with
      | nil => exact Or.inl List.nil_infix
      | cons x l1 =>
        rw [List.cons_prefix_cons] at h
        exact absurd (h.1 ▸ List.mem_cons_self x l1) hb
    · exact Or.inr h
  | cons x A1 ih =>
    rw [List.cons_append, List.infix_cons_iff] at h
    rcases h with h | h
    · obtain ⟨u, hu⟩ := h
      have hl : l <+: x :: (A1 ++ b :: C) := ⟨u, hu⟩
      have hx : x :: A1 <+: x :: (A1 ++ b :: C) := ⟨b :: C, by simp⟩
      have h1 : l <+: x :: A1 ∨ x :: A1 <+: l := List.prefix_or_prefix_of_prefix hl hx
      rcases h1 with h1 | ⟨v, hv⟩
      · exact Or.inl h1.isInfix
      · cases v with
        | nil =>
          rw [List.append_nil] at hv
          exact Or.inl (hv ▸ List.infix_refl _)
        | cons y v1 =>
          exfalso
          rw [← hv] at hu
          simp only [List.cons_append, List.append_assoc, List.cons.injEq, true_and] at hu
          rw [List.append_right_inj] at hu
          simp only [List.cons.injEq] at hu
          apply hb
          rw [← hv, hu.1]
          simp
    · rcases ih h with h | h
      · exact Or.inl (List.infix_cons h)
      · exact Or.inr h

/-- An occurrence of `l` in `A ++ B ++ C` lies in `A` or in `C` when `B` is not empty and
shares no character with `l`. -/
theorem occurrence_avoids_block {l C : List Char} :
    ∀ (B A : List Char), B ≠ [] → (∀ b ∈ B, b ∉ l) → l <:+: A ++ (B ++ C) →
      l <:+: A ∨ l <:+: C := by
  intro B
  induction B with
  | nil => intro A h; exact absurd rfl h
  | cons b B1 ih =>
    intro A _ hB h
    rcases occurrence_avoids_char (hB b (List.mem_cons_self b B1)) h with h1 | h1
    · exact Or.inl h1
    · cases hB1 : B1 with
      | nil =>
        rw [hB1] at h1
        exact Or.inr h1
      | cons c B2 =>
        have hne : B1 ≠ [] := by simp [hB1]
        rcases ih [] hne (fun x hx => hB x (List.mem_cons_of_mem b hx)) h1 with h2 | h2
        · rw [List.infix_nil] at h2
          exact Or.inl (h2 ▸ List.nil_infix)
        · exact Or.inr h2

theorem includes_eq_false_iff (s sub : String) :
    includes s sub = false ↔ ¬ sub.data <:+: s.data := by
  rw [← includesChars_iff, includes]
  simp

theorem contains_iff_includes (s pat : String) : Contains s pat ↔ includes s pat = true :=
  (includes_iff s pat).symm

theorem not_contains_iff (s pat : String) : ¬ Contains s pat ↔ includes s pat = false := by
  rw [contains_iff_includes]
  simp

theorem contains_iff_data (s pat : String) : Contains s pat ↔ pat.data <:+: s.data := by
  rw [contains_iff_includes, includes, includesChars_iff]

/-- What `replaceChars` computes, for every text and pattern: the text itself when the
pattern is absent, otherwise the text with the leftmost occurrence replaced. -/
theorem replaceChars_spec (pat rep : List Char) :
    ∀ s : List Char,
      (¬ pat <:+: s ∧ replaceChars s pat rep = s) ∨
        ∃ P R : List Char, s = P ++ pat ++ R
          ∧ (∀ P1 R1 : List Char, s = P1 ++ pat ++ R1 → P.length ≤ P1.length)
          ∧ replaceChars s pat rep = P ++ rep ++ R := by
  intro s
  induction s with
  | nil =>
    cases pat with
    | nil =>
      right
      exact ⟨[], [], rfl, fun _ _ _ => Nat.zero_le _, by simp [replaceChars]⟩
    | cons x pat1 =>
      left
      exact ⟨by simp, by simp [replaceChars]⟩
  | cons c cs ih =>
    by_cases hpre : pat.isPrefixOf (c :: cs) = true
    · right
      obtain ⟨R, hR⟩ := List.isPrefixOf_iff_prefix.1 hpre
      refine ⟨[], R, by simpa using hR.symm, fun _ _ _ => Nat.zero_le _, ?_⟩
      rw [replaceChars, if_pos hpre, ← hR, List.drop_left]
      rfl
    · have hnp : ¬ pat <+: c :: cs := fun h => hpre (List.isPrefixOf_iff_prefix.2 h)
      have hstep : replaceChars (c :: cs) pat rep = c :: replaceChars cs pat rep := by
        rw [replaceChars, if_neg hpre]
      rcases ih with ⟨habs, heq⟩ | ⟨P, R, hs, hmin, heq⟩
      · left
        refine ⟨?_, by rw [hstep, heq]⟩
        rw [List.infix_cons_iff]
        rintro (h | h)
        · exact hnp h
        · exact habs h
      · right
        refine ⟨c :: P, R, by simp [hs], ?_, by rw [hstep, heq]; simp⟩
        intro P1 R1 h1
        cases P1 with
        | nil =>
          exfalso
          apply hnp
          rw [h1]
          exact ⟨R1, by simp⟩
        | cons d P2 =>
          simp only [List.cons_append, List.cons.injEq] at h1
          have := hmin P2 R1 (by simpa using h1.2)
          simpa using this

/-- The function `replace` replaces the leftmost occurrence of the pattern and nothing
else, on every text. -/
theorem replace_isFirstReplacement (s pat rep : String) :
    IsFirstReplacement s pat rep (replace s pat rep) := by
  rcases replaceChars_spec pat.data rep.data s.data with ⟨habs, heq⟩ | ⟨P, R, hs, hmin, heq⟩
  · left
    refine ⟨fun h => habs ((contains_iff_data s pat).1 h), ?_⟩
    apply String.ext
    simpa [replace] using heq
  · right
    refine ⟨⟨P⟩, ⟨R⟩, ?_, ?_, ?_⟩
    · apply String.ext
      simpa [String.data_append] using hs
    · intro P1 R1 h1
      have h2 : s.data = P1.data ++ pat.data ++ R1.data := by
        rw [h1]
        simp [String.data_append]
      exact hmin P1.data R1.data h2
    · apply String.ext
      simpa [replace, String.data_append] using heq

theorem replace_width (P R : String) (hP : ¬ Contains P "{width}") :
    replace (P ++ "{width}" ++ R) "{width}" "440" = P ++ "440" ++ R := by
  rw [contains_iff_data] at hP
  apply String.ext
  simp only [replace, String.data_append]
  exact replaceChars_displayed (a := '{') (q := ['w', 'i', 'd', 't', 'h', '}'])
    (by decide) P.data _ R.data hP

theorem replace_height (P R : String) (hP : ¬ Contains P "{height}") :
    replace (P ++ "{height}" ++ R) "{height}" "248" = P ++ "248" ++ R := by
  rw [contains_iff_data] at hP
  apply String.ext
  simp only [replace, String.data_append]
  exact replaceChars_displayed (a := '{') (q := ['h', 'e', 'i', 'g', 'h', 't', '}'])
    (by decide) P.data _ R.data hP

/-- Inserting a non-empty text that shares no character with `pat` between two texts free
of `pat` gives a text free of `pat`. -/
theorem not_contains_insert (P B S pat : String) (hB : B.data ≠ [])
    (hdisj : ∀ b ∈ B.data, b ∉ pat.data)
    (hP : ¬ Contains P pat) (hS : ¬ Contains S pat) :
    ¬ Contains (P ++ B ++ S) pat := by
  rw [contains_iff_data] at hP hS ⊢
  intro h
  simp only [String.data_append, List.append_assoc] at h
  rcases occurrence_avoids_block B.data P.data hB hdisj h with h1 | h1
  · exact hP h1
  · exact hS h1

/-- The record of a stream whose thumbnail URL has the template form. -/
theorem combine_imagen_template (map : UserMap) (stream : Stream) (P S : String)
    (hurl : stream.thumbnail_url = P ++ "{width}x{height}" ++ S)
    (hPw : ¬ Contains P "{width}") (hPh : ¬ Contains P "{height}") :
    (combine map stream).imagen = P ++ "440x248" ++ S := by
  have h1 : stream.thumbnail_url = P ++ "{width}" ++ ("x{height}" ++ S) := by
    rw [hurl]
    apply String.ext
    simp [String.data_append]
  have h2 : P ++ "440" ++ ("x{height}" ++ S) = (P ++ "440x") ++ "{height}" ++ S := by
    apply String.ext
    simp [String.data_append]
  have h3 : (P ++ "440x") ++ "248" ++ S = P ++ "440x248" ++ S := by
    apply String.ext
    simp [String.data_append]
  have h4 : ¬ Contains (P ++ "440x") "{height}" := by
    have := not_contains_insert P "440x" "" "{height}" (by decide) (by decide) hPh
      ((not_contains_iff _ _).2 (by decide))
    simpa using this
  show replace (replace stream.thumbnail_url "{width}" "440") "{height}" "248" = _
  rw [h1, replace_width P _ hPw, h2, replace_height _ S h4, h3]

/-- C6 (as stated, refuted): for the thumbnail URL "{width}/{width}x{height}.jpg", which is
P ++ "{width}x{height}" ++ S with P = "{width}/" and S = ".jpg", the `imagen` the handler
sends is "440/{width}x248.jpg": it differs from P ++ "440x248" ++ S and still contains the
width placeholder. -/
theorem C6_second_placeholder_kept :
    (streamsHandler emptyEnv repeatedPlaceholderProvider none).response
        = ⟨200, Body.streams
            [{ id := "c"
               canal := "canal"
               titulo := "titulo"
               categoria := "juego"
               avatarUrl := MaybeString.null
               espectadores := 5
               enVivo := true
               imagen := "440/{width}x248.jpg" }]⟩
      ∧ repeatedPlaceholderStream.thumbnail_url = "{width}/" ++ "{width}x{height}" ++ ".jpg"
      ∧ "440/{width}x248.jpg" ≠ "{width}/" ++ "440x248" ++ ".jpg"
      ∧ Contains "440/{width}x248.jpg" "{width}" := by
  refine ⟨by decide, by decide, by decide, ?_⟩
  exact ⟨"440/", "x248.jpg", by decide⟩

/-- C6 (amended): when the streams request and the users request are answered, the handler
sends one record per stream, at the stream's position, and the record's `imagen` is the
stream's thumbnail URL after replacing the leftmost occurrence of "{width}" by "440" and
then the leftmost occurrence of "{height}" by "248" (a placeholder that does not occur
changes nothing).  A thumbnail URL P ++ "{width}x{height}" ++ S in which P contains neither
placeholder becomes P ++ "440x248" ++ S; if S contains neither placeholder either, the
`imagen` contains neither placeholder. -/
theorem C6_imagen (env : Env) (p : Provider) (twitchAccessToken t : Option String)
    (rawStreams : List Stream) (users : List User)
    (hsent : streamsCall env t ∈ (streamsHandler env p twitchAccessToken).calls)
    (hstreams : p.streams (streamsCall env t) = Except.ok rawStreams)
    (hne : rawStreams ≠ [])
    (husers : p.users (usersCall env t (rawStreams.map (fun stream => stream.user_id)))
      = Except.ok users) :
    ∃ records : List StreamRecord,
      (streamsHandler env p twitchAccessToken).response = ⟨200, Body.streams records⟩
        ∧ records.length = rawStreams.length
        ∧ ∀ (i : Nat) (stream : Stream), rawStreams[i]? = some stream →
          ∃ record : StreamRecord, records[i]? = some record
            ∧ (∃ mid : String,
                IsFirstReplacement stream.thumbnail_url "{width}" "440" mid
                  ∧ IsFirstReplacement mid "{height}" "248" record.imagen)
            ∧ ∀ P S : String, stream.thumbnail_url = P ++ "{width}x{height}" ++ S →
                ¬ Contains P "{width}" → ¬ Contains P "{height}" →
                record.imagen = P ++ "440x248" ++ S
                  ∧ (¬ Contains S "{width}" → ¬ Contains S "{height}" →
                      ¬ Contains record.imagen "{width}"
                        ∧ ¬ Contains record.imagen "{height}") := by
  refine ⟨combinedData rawStreams users,
    streamsHandler_records env p twitchAccessToken t rawStreams users hsent hstreams hne husers,
    by simp [combinedData], ?_⟩
  intro i stream hi
  refine ⟨combine (userMap users) stream, by rw [combinedData_getElem?, hi]; rfl, ?_, ?_⟩
  · exact ⟨replace stream.thumbnail_url "{width}" "440",
      replace_isFirstReplacement _ _ _, replace_isFirstReplacement _ _ _⟩
  · intro P S hurl hPw hPh
    have himg := combine_imagen_template (userMap users) stream P S hurl hPw hPh
    refine ⟨himg, ?_⟩
    intro hSw hSh
    rw [himg]
    exact ⟨not_contains_insert P "440x248" S "{width}" (by decide) (by decide) hPw hSw,
      not_contains_insert P "440x248" S "{height}" (by decide) (by decide) hPh hSh⟩

/-- C6 (amended), instance: the usual thumbnail template of the provider. -/
theorem C6_imagen_witness :
    ∃ records : List StreamRecord,
      (streamsHandler emptyEnv listingProvider none).response = ⟨200, Body.streams records⟩
        ∧ records.length = 2
        ∧ ∃ record : StreamRecord, records[0]? = some record
            ∧ record.imagen = "https://cdn/live_user-" ++ "440x248" ++ ".jpg"
            ∧ ¬ Contains record.imagen "{width}"
            ∧ ¬ Contains record.imagen "{height}" := by
  obtain ⟨records, hresp, hlen, h⟩ :=
    C6_imagen emptyEnv listingProvider none (some "app")
      [sampleStream "a" "1", shoutingStream] [⟨"1", "Uno", "https://img/1.png"⟩]
      (by decide) rfl (by decide) rfl
  obtain ⟨record, h1, -, h2⟩ := h 0 (sampleStream "a" "1") rfl
  obtain ⟨h3, h4⟩ := h2 "https://cdn/live_user-" ".jpg" (by decide)
    ((not_contains_iff _ _).2 (by decide)) ((not_contains_iff _ _).2 (by decide))
  obtain ⟨h5, h6⟩ := h4 ((not_contains_iff _ _).2 (by decide))
    ((not_contains_iff _ _).2 (by decide))
  exact ⟨records, hresp, hlen, record, h1, h3, h5, h6⟩

end TwitchBackend
